import Mathlib

/-!
Verification of the Cookie-Manage repository core: the PHP
CookieDatabase matcher (categorize, wildcardMatch, domainMatches,
addOverride, loadDatabase/updateDatabase), the PHP ConsentLogger
(log, getStats), and the JS CMP consent engine in
src/js/preference-center.js (saveConsent, handleScript, applyConsent).
Each definition is a shallow embedding transliterated from the source.
-/

namespace CookieDB

/-- PHP empty() on a string value: true exactly for the empty string and
the string "0". The PHP sources use both `empty($domain)` and the bare
truthiness test `$domain ?`, which coincide on strings. -/
def phpEmpty (s : String) : Bool := s == "" || s == "0"

/-- Bare string truthiness, `$domain ? ... : ...` in the PHP source. -/
def phpTruthy (s : String) : Bool := !(phpEmpty s)

/-- Explicit ASCII upper-to-lower table; PHP strtolower in the default C
locale lowercases exactly the bytes A-Z. -/
def upperLowerTable : List (Char × Char) :=
  [('A', 'a'), ('B', 'b'), ('C', 'c'), ('D', 'd'), ('E', 'e'), ('F', 'f'),
   ('G', 'g'), ('H', 'h'), ('I', 'i'), ('J', 'j'), ('K', 'k'), ('L', 'l'),
   ('M', 'm'), ('N', 'n'), ('O', 'o'), ('P', 'p'), ('Q', 'q'), ('R', 'r'),
   ('S', 's'), ('T', 't'), ('U', 'u'), ('V', 'v'), ('W', 'w'), ('X', 'x'),
   ('Y', 'y'), ('Z', 'z')]

/-- Lowercase one character the way PHP strtolower does (ASCII only). -/
def phpCharLower (c : Char) : Char :=
  match upperLowerTable.find? (fun p => p.1 == c) with
  | some p => p.2
  | none => c

/-- PHP strtolower on the character list of a string. -/
def strtolowerL (l : List Char) : List Char := l.map phpCharLower

/-- PHP strtolower. -/
def strtolower (s : String) : String := ⟨strtolowerL s.data⟩

/-- The characters escaped by PHP preg_quote with delimiter '/'. -/
def pregQuoteSpecials : List Char :=
  ['.', '\\', '+', '*', '?', '[', '^', ']', '$', '(', ')',
   '\x7b', '\x7d', '=', '!', '<', '>', '|', ':', '-', '#', '/']

/-- PHP preg_quote($pattern, '/'): a backslash is inserted before every
regex metacharacter and before the delimiter. -/
def pregQuote : List Char → List Char
  | [] => []
  | c :: rest =>
    if pregQuoteSpecials.contains c then '\\' :: c :: pregQuote rest
    else c :: pregQuote rest

/-- First phase of str_replace(["*", "?"], [".*", "."], s): every
occurrence of the character * is replaced by the two characters .* over
the whole string (PHP applies the search array sequentially). -/
def replaceStar : List Char → List Char
  | [] => []
  | c :: rest => if c == '*' then '.' :: '*' :: replaceStar rest else c :: replaceStar rest

/-- Second phase of the same str_replace call: every occurrence of the
character ? is replaced by the character . over the whole string. -/
def replaceQmark : List Char → List Char
  | [] => []
  | c :: rest => if c == '?' then '.' :: replaceQmark rest else c :: replaceQmark rest

/-- One regex atom of the pattern language produced by wildcardMatch:
either a literal character or the metacharacter dot (any character). -/
inductive RAtom where
  | lit (c : Char)
  | anyChar
deriving DecidableEq, Repr

/-- Parse the delimiter-free body of the regex built by wildcardMatch
into a list of atoms, each optionally starred. A backslash escapes the
next character to a literal (preg_quote only escapes non-alphanumeric
characters, so every escape denotes a literal); a bare dot is the
any-character atom; a star quantifies the preceding atom. The strings
reaching this parser never contain a bare ? or a leading star. -/
def parseRegex : List Char → List (RAtom × Bool)
  | [] => []
  | '\\' :: c :: '*' :: rest => (RAtom.lit c, true) :: parseRegex rest
  | '\\' :: c :: rest => (RAtom.lit c, false) :: parseRegex rest
  | '\\' :: [] => []
  | '.' :: '*' :: rest => (RAtom.anyChar, true) :: parseRegex rest
  | '.' :: rest => (RAtom.anyChar, false) :: parseRegex rest
  | '*' :: rest => parseRegex rest
  | c :: '*' :: rest => (RAtom.lit c, true) :: parseRegex rest
  | c :: rest => (RAtom.lit c, false) :: parseRegex rest

/-- Does one atom match one character. -/
def atomMatch : RAtom → Char → Bool
  | RAtom.lit c, d => c == d
  | RAtom.anyChar, _ => true

/-- All suffixes of the input reachable by consuming zero or more
characters that match the given atom, in order of consumption count. -/
def starSplits (a : RAtom) : List Char → List (List Char)
  | [] => [[]]
  | c :: cs => (c :: cs) :: (if atomMatch a c then starSplits a cs else [])

/-- Anchored matching of an atom sequence against a character list,
the semantics of preg_match on the ^...$ regex built by wildcardMatch:
a starred atom consumes any number of matching characters. -/
def rmatch : List (RAtom × Bool) → List Char → Bool
  | [], s => s.isEmpty
  | (_, false) :: _, [] => false
  | (a, false) :: rs, c :: cs => atomMatch a c && rmatch rs cs
  | (a, true) :: rs, s => (starSplits a s).any (fun t => rmatch rs t)

/-- CookieDatabase::wildcardMatch, lines 333-341: both sides are
lowercased, the pattern is preg_quoted, then the characters * and ? of
the quoted text are replaced by .* and . respectively, and the result
is matched anchored against the name. Because preg_quote has already
escaped * and ? to backslash-star and backslash-question, the
replacement turns a pattern star into backslash-dot-star (zero or more
literal dots) and a pattern question mark into backslash-dot (one
literal dot). -/
def wildcardMatch (name pattern : String) : Bool :=
  rmatch (parseRegex (replaceQmark (replaceStar (pregQuote (strtolowerL pattern.data)))))
    (strtolowerL name.data)


/-- Does the first string end with the second, computed on character
lists; this is the PHP comparison substr($s, -strlen($p)) === $p,
since substr clamps a negative start at the string beginning and the
comparison then fails on length. -/
def strEndsWith (s p : String) : Bool := p.data.isSuffixOf s.data

/-- Does the first string start with the second, on character lists. -/
def strStartsWith (s p : String) : Bool := p.data.isPrefixOf s.data

/-- CookieDatabase::domainMatches, lines 350-366: exact match, or a
pattern beginning with a dot matched as a suffix, or a parent-domain
match against a dot prefixed to the pattern. -/
def domainMatches (domain pattern : String) : Bool :=
  let d := strtolower domain
  let p := strtolower pattern
  if d == p then true
  else if strStartsWith p "." then strEndsWith d p
  else strEndsWith d ("." ++ p)

/-- One normalized record of the cookie corpus, restricted to the
fields categorize and buildIndexes read. -/
structure Cookie where
  category : String
  name : String
  domain : String
  isWildcard : Bool
deriving DecidableEq, Repr

/-- Cookie used when an index refers past the record list; the indexes
built by buildIndexes only hold valid positions. -/
def defaultCookie : Cookie := ⟨"", "", "", false⟩

/-- One entry of cookies/overrides.json, as written by addOverride. -/
structure OverrideEntry where
  name : String
  domain : String
  category : String
  reason : String
  timestamp : String
deriving DecidableEq, Repr

/-- PHP associative-array lookup: first entry with the given key. -/
def lookupAssoc {α : Type} (m : List (String × α)) (k : String) : Option α :=
  (m.find? (fun p => p.1 == k)).map Prod.snd

/-- PHP associative-array assignment: overwrite the entry holding the
key if present, keeping its position, else append a new entry. -/
def assocSet {α : Type} : List (String × α) → String → α → List (String × α)
  | [], k, v => [(k, v)]
  | (k', v') :: rest, k, v =>
    if k' == k then (k, v) :: rest else (k', v') :: assocSet rest k v

/-- PHP `$m[$k][] = i` on a map of lists: append to the list at the
key, creating it when absent. -/
def assocPush : List (String × List Nat) → String → Nat → List (String × List Nat)
  | [], k, i => [(k, [i])]
  | (k', l) :: rest, k, i =>
    if k' == k then (k', l ++ [i]) :: rest else (k', l) :: assocPush rest k i

/-- The cached database: the record list plus the indexes of
buildIndexes (byName, byDomain, wildcards). -/
structure Database where
  cookies : List Cookie
  byName : List (String × List Nat)
  byDomain : List (String × List Nat)
  wildcards : List (String × Nat)
deriving DecidableEq, Repr

/-- CookieDatabase::buildIndexes, lines 140-172: wildcard records go to
the ordered wildcard list, others to byName by lowercased name; every
record with a PHP-nonempty domain also goes to byDomain. -/
def buildIndexes (cookies : List Cookie) : Database :=
  let step := fun (acc : Database × Nat) (c : Cookie) =>
    let (db, idx) := acc
    let nm := strtolower c.name
    let dom := strtolower c.domain
    let db :=
      if c.isWildcard then { db with wildcards := db.wildcards ++ [(nm, idx)] }
      else { db with byName := assocPush db.byName nm idx }
    let db :=
      if !(phpEmpty dom) then { db with byDomain := assocPush db.byDomain dom idx }
      else db
    (db, idx + 1)
  (cookies.foldl step (⟨cookies, [], [], []⟩, 0)).1

/-- What categorize returns in the matched field: the override entry,
the matched corpus record, or nothing. -/
inductive Matched where
  | override (o : OverrideEntry)
  | cookie (c : Cookie)
  | null
deriving DecidableEq, Repr

/-- Return value of CookieDatabase::categorize. -/
structure ClassifyResult where
  category : String
  confidence : String
  matched : Matched
deriving DecidableEq, Repr

/-- The result for an unclassifiable name, lines 231-237 and 319-323. -/
def uncategorizedResult : ClassifyResult := ⟨"uncategorized", "none", Matched.null⟩

/-- CookieDatabase::categorize, lines 228-324, for an in-memory
database state: with no database loaded the uncategorized result is
returned before the override lookup; otherwise overrides, exact byName
with a domain-preference scan, wildcards in registration order with a
domain filter, and byDomain are tried in this order. -/
def categorize (db : Option Database) (ovr : List (String × OverrideEntry))
    (name domain : String) : ClassifyResult :=
  match db with
  | none => uncategorizedResult
  | some db =>
    let name := strtolower name
    let domain := strtolower domain
    let overrideKey := name ++ (if phpTruthy domain then "@" ++ domain else "")
    match lookupAssoc ovr overrideKey with
    | some o => ⟨o.category, "override", Matched.override o⟩
    | none =>
      match lookupAssoc db.byName name with
      | some idxs =>
        let firstIdx := idxs.headD 0
        let scan :=
          if !(phpEmpty domain) then
            idxs.find? (fun idx =>
              let ck := db.cookies.getD idx defaultCookie
              let cd := strtolower ck.domain
              cd == domain || domainMatches domain cd)
          else none
        let chosen := scan.getD firstIdx
        let ck := db.cookies.getD chosen defaultCookie
        ⟨ck.category, "exact", Matched.cookie ck⟩
      | none =>
        match db.wildcards.find? (fun w =>
            wildcardMatch name w.1 &&
            (let ck := db.cookies.getD w.2 defaultCookie
             let cd := strtolower ck.domain
             !(!(phpEmpty domain) && !(phpEmpty ck.domain) &&
               !(cd == domain) && !(domainMatches domain cd)))) with
        | some w =>
          let ck := db.cookies.getD w.2 defaultCookie
          ⟨ck.category, "wildcard", Matched.cookie ck⟩
        | none =>
          if !(phpEmpty domain) then
            match lookupAssoc db.byDomain domain with
            | some idxs =>
              let ck := db.cookies.getD (idxs.headD 0) defaultCookie
              ⟨ck.category, "domain", Matched.cookie ck⟩
            | none => uncategorizedResult
          else uncategorizedResult

/-- CookieDatabase::addOverride, lines 391-413: the store is keyed by
the lowercased name, with an at-sign and the lowercased domain appended
when the domain is PHP-truthy; assignment overwrites any prior entry
for the key. The timestamp date(c) is passed in by the caller as now. -/
def addOverride (ovr : List (String × OverrideEntry))
    (name domain category reason now : String) : List (String × OverrideEntry) :=
  let key := strtolower name ++ (if phpTruthy domain then "@" ++ strtolower domain else "")
  assocSet ovr key ⟨name, domain, category, reason, now⟩

/-- A supplied domain, in the sense the claim uses: one the PHP code
does not treat as empty. -/
def domainSupplied (domain : String) : Bool := !(phpEmpty domain)

/-- Resolution stage 1 of the claim: Override Store exact key lookup
on the lowercased key. -/
def stageOverride (ovr : List (String × OverrideEntry)) (name domain : String) :
    Option ClassifyResult :=
  let key := strtolower name ++
    (if domainSupplied domain then "@" ++ strtolower domain else "")
  (lookupAssoc ovr key).map (fun o => ⟨o.category, "override", Matched.override o⟩)

/-- Resolution stage 2 of the claim: exact byName match, preferring the
first candidate whose domain equals or contains the supplied domain,
otherwise the first candidate regardless of domain. -/
def stageExact (db : Database) (name domain : String) : Option ClassifyResult :=
  (lookupAssoc db.byName (strtolower name)).map (fun idxs =>
    let preferred :=
      if domainSupplied domain then
        idxs.find? (fun idx =>
          let cd := strtolower (db.cookies.getD idx defaultCookie).domain
          cd == strtolower domain || domainMatches (strtolower domain) cd)
      else none
    let ck := db.cookies.getD (preferred.getD (idxs.headD 0)) defaultCookie
    ⟨ck.category, "exact", Matched.cookie ck⟩)

/-- Resolution stage 3 of the claim: wildcard match in registration
order, applying the domain-containment filter when both the request and
the record carry a domain. -/
def stageWildcard (db : Database) (name domain : String) : Option ClassifyResult :=
  (db.wildcards.find? (fun w =>
      wildcardMatch (strtolower name) w.1 &&
      (let ck := db.cookies.getD w.2 defaultCookie
       let cd := strtolower ck.domain
       !(domainSupplied domain && !(phpEmpty ck.domain) &&
         !(cd == strtolower domain) && !(domainMatches (strtolower domain) cd))))).map
    (fun w =>
      let ck := db.cookies.getD w.2 defaultCookie
      ⟨ck.category, "wildcard", Matched.cookie ck⟩)

/-- Resolution stage 4 of the claim: domain-only match. -/
def stageDomainOnly (db : Database) (domain : String) : Option ClassifyResult :=
  if domainSupplied domain then
    (lookupAssoc db.byDomain (strtolower domain)).map (fun idxs =>
      let ck := db.cookies.getD (idxs.headD 0) defaultCookie
      ⟨ck.category, "domain", Matched.cookie ck⟩)
  else none

/-- First-hit-wins chaining over the ordered stages. -/
def firstHit : List (Option ClassifyResult) → ClassifyResult
  | [] => uncategorizedResult
  | some r :: _ => r
  | none :: rest => firstHit rest

/-- The classifier exactly as claim C4 words it: the four ordered
stages, first hit wins, confidence naming the matching stage, and the
uncategorized, none fallback. -/
def specClassify (db : Database) (ovr : List (String × OverrideEntry))
    (name domain : String) : ClassifyResult :=
  firstHit
    [stageOverride ovr name domain, stageExact db name domain,
     stageWildcard db name domain, stageDomainOnly db domain]

/-- External world of CookieDatabase: the cache file and the CSV
download. cacheRead is the parsed cache content, none when the read
throws; download is the database built from a successfully fetched CSV,
none when file_get_contents returns false. CSV parsing itself is total
in the source, malformed lines are skipped, so a fetch failure is the
only throwing path of updateDatabase. -/
structure DbEnv where
  cacheExists : Bool
  cacheRead : Option Database
  cacheFresh : Bool
  download : Option Database

/-- CookieDatabase::updateDatabase, lines 39-132, on the in-memory
database field: with a readable cache younger than seven days the call
returns with no change; otherwise a failed download throws the
exception Failed to download Open Cookie Database, and a successful
download replaces the in-memory database (the cache write is carried by
the environment). -/
def updateDatabase (st : Option Database) (forceRefresh : Bool) (env : DbEnv) :
    Except String (Option Database) :=
  if !forceRefresh && env.cacheExists && env.cacheRead.isSome && env.cacheFresh then
    Except.ok st
  else
    match env.download with
    | none => Except.error "Failed to download Open Cookie Database"
    | some db => Except.ok (some db)

/-- CookieDatabase::loadDatabase, lines 203-219: an already-loaded
database is kept; with no cache file the code falls through to
updateDatabase, whose exception escapes; a cache read failure is caught
and reported as false with the database left unloaded. -/
def loadDatabase (st : Option Database) (env : DbEnv) :
    Except String (Option Database × Bool) :=
  match st with
  | some db => Except.ok (some db, true)
  | none =>
    if !env.cacheExists then
      (updateDatabase st false env).map (fun st' => (st', true))
    else
      match env.cacheRead with
      | some db => Except.ok (some db, true)
      | none => Except.ok (none, false)

/-- CookieDatabase::categorize including its loadDatabase call, lines
228-237: the exception of a failed download with no cache escapes the
categorize call. -/
def categorizeE (st : Option Database) (env : DbEnv)
    (ovr : List (String × OverrideEntry)) (name domain : String) :
    Except String ClassifyResult :=
  match loadDatabase st env with
  | Except.error e => Except.error e
  | Except.ok (st', _) => Except.ok (categorize st' ovr name domain)

/-- A one-record corpus holding the wildcard pattern used by the spec
examples. -/
def gaCorpus : Database :=
  buildIndexes [⟨"analytics", "_ga*", "", true⟩]

/-- The world in which nothing is cached and the download fails. -/
def noCacheEnv : DbEnv := ⟨false, none, false, none⟩

/-- The world in which a cache file with the one-record corpus exists. -/
def cachedEnv : DbEnv := ⟨true, some gaCorpus, true, none⟩

end CookieDB

namespace ConsentLogger

/-- The session identifier as it is recorded in a log entry: either the
caller-supplied string kept verbatim, or the sha256 hash of the shown
preimage. The hash itself is an external primitive, so its application
is kept symbolic. -/
inductive SessionValue where
  | verbatim (s : String)
  | hashed (preimage : String)
deriving DecidableEq, Repr

/-- One JSONL log entry, restricted to the fields the claims read. -/
structure LogEntry where
  timestamp : String
  sessionId : SessionValue
  consentState : List (String × Bool)
  widgetVersion : String
  policyVersion : String
deriving DecidableEq, Repr

/-- ConsentLogger::log, lines 30-62, up to the storage append: an empty
consent state throws Invalid consent state; a session identifier
shorter than 32 characters is replaced by hash(sha256, id . remoteAddr)
before the entry is built, a longer one is recorded verbatim. The PHP
strlen counts bytes; the identifiers at issue are ASCII. -/
def logEntry (consentState : List (String × Bool)) (sessionId : String)
    (remoteAddr : String) (now widgetVersion policyVersion : String) :
    Except String LogEntry :=
  if consentState.isEmpty then Except.error "Invalid consent state"
  else
    let sid :=
      if sessionId.length < 32 then SessionValue.hashed (sessionId ++ remoteAddr)
      else SessionValue.verbatim sessionId
    Except.ok ⟨now, sid, consentState, widgetVersion, policyVersion⟩

/-- The three decision shapes getStats tallies. -/
inductive ConsentKind where
  | acceptedAll
  | rejectedAll
  | customized
deriving DecidableEq, Repr

/-- The accumulator loop of ConsentLogger::getStats, lines 125-147: the
pair carries allAccepted and allRejected; an accepted category clears
allRejected, a rejected one clears allAccepted unless it is named
necessary. -/
def consentFlags : List (String × Bool) → Bool → Bool → Bool × Bool
  | [], aA, aR => (aA, aR)
  | (cat, acc) :: rest, aA, aR =>
    if acc then consentFlags rest aA false
    else consentFlags rest (if cat == "necessary" then aA else false) aR

/-- ConsentLogger::getStats classification of one entry, lines 149-156:
acceptedAll wins over rejectedAll, anything else is customized. -/
def consentKindOf (state : List (String × Bool)) : ConsentKind :=
  let (aA, aR) := consentFlags state true true
  if aA then ConsentKind.acceptedAll
  else if aR then ConsentKind.rejectedAll
  else ConsentKind.customized

/-- The acceptedAll, rejectedAll and customized counters of getStats
over a list of logged consent states, for the days = 0 call where the
time cutoff filters nothing; the byCategory and byDay tallies are
orthogonal to the claims and omitted. -/
def getStatsCounts (logs : List (List (String × Bool))) : Nat × Nat × Nat :=
  (logs.countP (fun st => decide (consentKindOf st = ConsentKind.acceptedAll)),
   logs.countP (fun st => decide (consentKindOf st = ConsentKind.rejectedAll)),
   logs.countP (fun st => decide (consentKindOf st = ConsentKind.customized)))

/-- The decision CMP.rejectAll submits, preference-center.js lines
1088-1095. -/
def rejectAllState : List (String × Bool) :=
  [("necessary", true), ("preferences", false), ("analytics", false), ("marketing", false)]


end ConsentLogger

namespace Cmp

/-- A consent decision object, the state field of this.consent: a JS
object mapping category names to booleans. -/
abbrev Decision := List (String × Bool)

/-- JS property read this.consent.state[category]: the stored value, or
a falsy undefined when the key is absent. -/
def getProp (d : Decision) (k : String) : Bool :=
  match d.find? (fun p => p.1 == k) with
  | some p => p.2
  | none => false

/-- The type attribute of a script element as the CMP reads it: the
blocking placeholder text/plain, or an executable type (the default
empty type and text/javascript behave alike). -/
inductive SType where
  | plain
  | javascript
deriving DecidableEq, Repr

/-- One script element: its data-category attribute, its type, its
data-blocked marker, and how many times it has been rewritten from
placeholder to executable form by applyConsent. -/
structure Script where
  category : Option String
  stype : SType
  dataBlocked : Bool
  execCount : Nat
deriving DecidableEq, Repr

/-- Placeholder value of unused script slots. -/
def noScript : Script := ⟨none, SType.javascript, false, 0⟩

/-- The CMP state: this.consent (its state field), the persisted copy
in localStorage under cmp_consent, the scripts seen so far as a map
from discovery index, and this.blockedScripts as index and category
pairs in push order. -/
structure CmpState where
  consent : Option Decision
  persisted : Option Decision
  scripts : Nat → Script
  scriptCount : Nat
  blockedScripts : List (Nat × String)

/-- Pointwise function update for the script map. -/
def updf (f : Nat → Script) (i : Nat) (v : Script) : Nat → Script :=
  fun j => if j == i then v else f j

/-- CMP.handleScript, preference-center.js lines 794-826, applied to
the script at index i: no marker or the necessary marker passes; an
unconsented category rewrites an executable script to the text/plain
placeholder, records data-blocked and pushes onto blockedScripts; a
consented category restores text/javascript on a script that carries
the data-blocked marker. -/
def handleScript (s : CmpState) (i : Nat) : CmpState :=
  let sc := s.scripts i
  match sc.category with
  | none => s
  | some cat =>
    if cat == "necessary" then s
    else
      let consented :=
        match s.consent with
        | none => false
        | some d => getProp d cat
      if !consented then
        if !(sc.stype == SType.plain) then
          { s with
            scripts := updf s.scripts i { sc with stype := SType.plain, dataBlocked := true },
            blockedScripts := s.blockedScripts ++ [(i, cat)] }
        else s
      else
        if sc.stype == SType.plain && sc.dataBlocked then
          { s with
            scripts := updf s.scripts i { sc with stype := SType.javascript, dataBlocked := false } }
        else s

/-- A script insertion observed by the MutationObserver of
CMP.interceptScripts, or one of the existing text/plain scripts handled
at startup: the element is appended and handleScript runs on it. -/
def discover (s : CmpState) (cat : Option String) (t : SType) (b : Bool) : CmpState :=
  let i := s.scriptCount
  let s1 := { s with
    scripts := updf s.scripts i ⟨cat, t, b, 0⟩,
    scriptCount := i + 1 }
  handleScript s1 i

/-- The forEach loop of CMP.applyConsent, lines 846-861, over the
blockedScripts entries: a consented entry whose script still has the
text/plain type is replaced by an executable clone (type and
data-blocked dropped, other attributes and content kept); the returned
list records the replaced indices in execution order. The observer
callback fired by the replaceChild sees a consented executable script
and does nothing, so it is not modeled as a separate step. The clone of
one blocked script is described by activated: type and data-blocked
dropped, conversion count raised. -/
def activated (sc : Script) : Script :=
  { sc with stype := SType.javascript, dataBlocked := false, execCount := sc.execCount + 1 }

def applyScripts (d : Decision) : (Nat → Script) → List (Nat × String) → (Nat → Script) × List Nat
  | scr, [] => (scr, [])
  | scr, (i, cat) :: rest =>
    let sc := scr i
    if getProp d cat && sc.stype == SType.plain then
      let scr2 := updf scr i (activated sc)
      let res := applyScripts d scr2 rest
      (res.1, i :: res.2)
    else
      applyScripts d scr rest

/-- CMP.applyConsent, lines 840-865: run the unblock loop under the
current consent, then clear the blockedScripts list. -/
def applyConsent (s : CmpState) : CmpState × List Nat :=
  match s.consent with
  | none => (s, [])
  | some d =>
    let res := applyScripts d s.scripts s.blockedScripts
    ({ s with scripts := res.1, blockedScripts := [] }, res.2)

/-- The observable actions of CMP.saveConsent in the order the code
performs them. -/
inductive Effect where
  | persistAttempt (ok : Bool)
  | consoleError
  | logBackend (d : Decision)
  | gateReeval (converted : List Nat)
  | notify (d : Decision)
deriving DecidableEq, Repr

/-- CMP.saveConsent, lines 620-642: this.consent is replaced first; the
localStorage write is attempted inside try/catch, a failure only logs
to the console; then the backend logging request, then applyConsent,
then the single cmp:consent-changed dispatch. The wrapping of the state
into {state, timestamp, version} is modeled by keeping the state field;
ok tells whether the localStorage write succeeds. -/
def saveConsent (s : CmpState) (d : Decision) (ok : Bool) : CmpState × List Effect :=
  let s1 := { s with consent := some d }
  let s2 := if ok then { s1 with persisted := some d } else s1
  let res := applyConsent s2
  (res.1,
    [Effect.persistAttempt ok] ++
    (if ok then [] else [Effect.consoleError]) ++
    [Effect.logBackend d, Effect.gateReeval res.2, Effect.notify d])

/-- CMP.updateConsent, lines 1140-1142, is exactly saveConsent. -/
def updateConsent (s : CmpState) (d : Decision) (ok : Bool) : CmpState × List Effect :=
  saveConsent s d ok

/-- The events that drive the engine: script discoveries and
consent-setting calls (saveConsent via acceptAll, rejectAll or
updateConsent). -/
inductive Event where
  | discover (cat : Option String) (t : SType) (b : Bool)
  | consentChange (d : Decision) (ok : Bool)

/-- One engine step. -/
def stepEvent (s : CmpState) : Event → CmpState
  | Event.discover cat t b => discover s cat t b
  | Event.consentChange d ok => (saveConsent s d ok).1

/-- Run a list of events in order. -/
def runEvents : CmpState → List Event → CmpState
  | s, [] => s
  | s, e :: rest => runEvents (stepEvent s e) rest

/-- The page before the CMP sees anything: no consent, nothing
persisted, no scripts. -/
def initState : CmpState := ⟨none, none, fun _ => noScript, 0, []⟩

/-- The gate pass payload inside an effect list. -/
def gateConversions : List Effect → List Nat
  | [] => []
  | Effect.gateReeval l :: _ => l
  | _ :: rest => gateConversions rest

/-- Is this effect the change notification. -/
def isNotify : Effect → Bool
  | Effect.notify _ => true
  | _ => false

/-- Is this effect the gate re-evaluation pass. -/
def isGateReeval : Effect → Bool
  | Effect.gateReeval _ => true
  | _ => false

/-- A marketing script is discovered before any consent, a first
consent call grants analytics only, a second grants marketing too. -/
def twoStepGrantTrace : List Event :=
  [Event.discover (some "marketing") SType.javascript false,
   Event.consentChange [("necessary", true), ("analytics", true), ("marketing", false)] true,
   Event.consentChange [("necessary", true), ("analytics", true), ("marketing", true)] true]

/-- An analytics script discovered before any consent: it ends up
blocked and on the blocked list. -/
def blockedOneState : CmpState :=
  runEvents initState [Event.discover (some "analytics") SType.javascript false]

/-- Analytics consented first, then an analytics script discovered: it
goes straight to executable form. -/
def activeOneState : CmpState :=
  runEvents initState
    [Event.consentChange [("analytics", true)] true,
     Event.discover (some "analytics") SType.javascript false]

end Cmp

namespace CookieDB

theorem phpCharLower_eq_zero {c : Char} (h : phpCharLower c = '0') : c = '0' := by
  unfold phpCharLower at h
  cases hf : upperLowerTable.find? (fun p => p.1 == c) with
  | none => simpa [hf] using h
  | some p =>
    rw [hf] at h
    have hmem := List.mem_of_find?_eq_some hf
    have hpred := List.find?_some hf
    have hall : ∀ q ∈ upperLowerTable, q.2 ≠ '0' := by decide
    exact absurd h (hall p hmem)

theorem strtolower_eq_empty {s : String} : strtolower s = "" ↔ s = "" := by
  constructor
  · intro h
    have hd : s.data.map phpCharLower = [] := congrArg String.data h
    have hnil : s.data = [] := List.map_eq_nil_iff.mp hd
    exact String.ext (show s.data = ("" : String).data from hnil)
  · intro h; rw [h]; rfl

theorem strtolower_eq_zero {s : String} : strtolower s = "0" ↔ s = "0" := by
  constructor
  · intro h
    have hd : s.data.map phpCharLower = ['0'] := congrArg String.data h
    cases hsd : s.data with
    | nil => rw [hsd] at hd; simp at hd
    | cons c t =>
      rw [hsd] at hd
      simp only [List.map_cons, List.cons.injEq] at hd
      have hc : c = '0' := phpCharLower_eq_zero hd.1
      have ht : t = [] := List.map_eq_nil_iff.mp hd.2
      refine String.ext (show s.data = ("0" : String).data from ?_)
      rw [hsd, hc, ht]
  · intro h; rw [h]; rfl

theorem phpEmpty_strtolower (s : String) : phpEmpty (strtolower s) = phpEmpty s := by
  unfold phpEmpty
  have h1 : (strtolower s == "") = (s == "") := by
    cases h : s == "" with
    | true => simp only [beq_iff_eq] at h; rw [h]; rfl
    | false =>
      simp only [beq_eq_false_iff_ne, ne_eq] at h
      simp only [beq_eq_false_iff_ne, ne_eq]
      exact fun hc => h (strtolower_eq_empty.mp hc)
  have h2 : (strtolower s == "0") = (s == "0") := by
    cases h : s == "0" with
    | true => simp only [beq_iff_eq] at h; rw [h]; rfl
    | false =>
      simp only [beq_eq_false_iff_ne, ne_eq] at h
      simp only [beq_eq_false_iff_ne, ne_eq]
      exact fun hc => h (strtolower_eq_zero.mp hc)
  rw [h1, h2]

theorem phpTruthy_strtolower (s : String) : phpTruthy (strtolower s) = phpTruthy s := by
  unfold phpTruthy; rw [phpEmpty_strtolower]


/-- Writing a key into the override store makes that key read back the
written entry. -/
theorem lookupAssoc_assocSet_self {α : Type} (m : List (String × α)) (k : String) (v : α) :
    lookupAssoc (assocSet m k v) k = some v := by
  induction m with
  | nil => simp [assocSet, lookupAssoc]
  | cons p rest ih =>
    cases p with
    | mk k' w =>
      cases hk : k' == k with
      | true => simp [assocSet, hk, lookupAssoc]
      | false =>
        simp only [assocSet, hk, Bool.false_eq_true, if_false]
        simpa [lookupAssoc, List.find?, hk] using ih

/-- Writing the same key twice leaves exactly what the second write
alone would: PHP array assignment replaces in place. -/
theorem assocSet_assocSet {α : Type} (m : List (String × α)) (k : String) (v v' : α) :
    assocSet (assocSet m k v) k v' = assocSet m k v' := by
  induction m with
  | nil => simp [assocSet]
  | cons p rest ih =>
    cases p with
    | mk k' w =>
      cases hk : k' == k with
      | true => simp [assocSet, hk]
      | false => simp [assocSet, hk, ih]

/-- C4: for every loaded database, every override store, every name and
every optional domain, categorize resolves by first-hit-wins precedence
over the four stages override, exact, wildcard, domain, falling through
to the uncategorized, none result, and the returned confidence names
the first stage that matched: the transliterated categorize coincides
with the stage-chain classifier written from the words of the claim. -/
theorem c4_classify_first_hit (db : Database) (ovr : List (String × OverrideEntry))
    (name domain : String) :
    categorize (some db) ovr name domain = specClassify db ovr name domain := by
  unfold categorize specClassify stageOverride stageExact stageWildcard stageDomainOnly
  simp only [phpTruthy_strtolower, phpEmpty_strtolower, phpTruthy, domainSupplied]
  rcases Bool.eq_false_or_eq_true (phpEmpty domain) with hd | hd <;>
    simp only [hd, Bool.not_false, if_true, Bool.true_and, Bool.not_true,
      Bool.false_eq_true, if_false, Bool.false_and, Bool.and_true,
      String.append_empty]
  · split
    next o heq => rw [heq]; rfl
    next heq =>
      rw [heq]
      split
      next idxs heq2 => rw [heq2]; rfl
      next heq2 =>
        rw [heq2]
        split
        next w heq3 => rw [heq3]; rfl
        next heq3 => rw [heq3]; rfl
  · split
    next o heq => rw [heq]; rfl
    next heq =>
      rw [heq]
      split
      next idxs heq2 => rw [heq2]; rfl
      next heq2 =>
        rw [heq2]
        split
        next w heq3 => rw [heq3]; rfl
        next heq3 =>
          rw [heq3]
          split
          next idxs heq4 => rw [heq4]; rfl
          next heq4 => rw [heq4]; rfl


end CookieDB

namespace ConsentLogger

/-- Helper: once allRejected is cleared it stays cleared. -/
theorem consentFlags_snd_false : ∀ (l : List (String × Bool)) (aA : Bool),
    (consentFlags l aA false).2 = false := by
  intro l
  induction l with
  | nil => intro aA; rfl
  | cons p rest ih =>
    intro aA
    cases p with
    | mk cat acc =>
      cases acc with
      | true => simpa [consentFlags] using ih aA
      | false => simpa [consentFlags] using ih (if cat == "necessary" then aA else false)

/-- Helper: if the loop reports allRejected, every category in the
entry carries false. -/
theorem consentFlags_all_false : ∀ (l : List (String × Bool)) (aA : Bool),
    (consentFlags l aA true).2 = true → ∀ p ∈ l, p.2 = false := by
  intro l
  induction l with
  | nil => intro aA _ p hp; cases hp
  | cons q rest ih =>
    intro aA h p hp
    cases q with
    | mk cat acc =>
      cases acc with
      | true =>
        exfalso
        have := consentFlags_snd_false rest aA
        rw [show consentFlags ((cat, true) :: rest) aA true
              = consentFlags rest aA false from rfl] at h
        rw [this] at h
        exact Bool.false_ne_true h
      | false =>
        rcases List.mem_cons.mp hp with hp | hp
        · rw [hp]
        · exact ih (if cat == "necessary" then aA else false) h p hp


/-- getStats counts an entry as rejectedAll only when every category of
the entry, necessary included, carries false. -/
theorem consentKindOf_rejected (st : List (String × Bool))
    (h : consentKindOf st = ConsentKind.rejectedAll) : ∀ p ∈ st, p.2 = false := by
  apply consentFlags_all_false st true
  unfold consentKindOf at h
  rcases hfl : consentFlags st true true with ⟨aA, aR⟩
  rw [hfl] at h
  cases aA with
  | true => simp at h
  | false =>
    cases aR with
    | true => rfl
    | false => simp at h

end ConsentLogger

namespace Cmp

theorem updf_self (f : Nat → Script) (i : Nat) (v : Script) : updf f i v i = v := by
  simp [updf]

theorem updf_ne (f : Nat → Script) (v : Script) {i j : Nat} (h : j ≠ i) :
    updf f i v j = f j := by
  simp [updf, h]

/-- Every index the unblock loop reports was on the blocked list. -/
theorem applyScripts_subset (d : Decision) :
    ∀ (l : List (Nat × String)) (scr : Nat → Script) (x : Nat),
      x ∈ (applyScripts d scr l).2 → x ∈ l.map Prod.fst := by
  intro l
  induction l with
  | nil => intro scr x hx; simp [applyScripts] at hx
  | cons p rest ih =>
    intro scr x hx
    cases p with
    | mk i cat =>
      cases hc : (getProp d cat && (scr i).stype == SType.plain) with
      | true =>
        simp only [applyScripts, hc, if_true] at hx
        rcases List.mem_cons.mp hx with hx | hx
        · simp [hx]
        · exact List.mem_cons_of_mem _ (ih _ x hx)
      | false =>
        simp only [applyScripts, hc, Bool.false_eq_true, if_false] at hx
        exact List.mem_cons_of_mem _ (ih _ x hx)

/-- An index the unblock loop does not report keeps its script. -/
theorem applyScripts_not_conv (d : Decision) :
    ∀ (l : List (Nat × String)) (scr : Nat → Script) (i : Nat),
      i ∉ (applyScripts d scr l).2 → (applyScripts d scr l).1 i = scr i := by
  intro l
  induction l with
  | nil => intro scr i _; rfl
  | cons p rest ih =>
    intro scr i hi
    cases p with
    | mk j cat =>
      cases hc : (getProp d cat && (scr j).stype == SType.plain) with
      | true =>
        simp only [applyScripts, hc, if_true, List.mem_cons, not_or] at hi
        simp only [applyScripts, hc, if_true]
        rw [ih _ i hi.2]
        exact updf_ne _ _ hi.1
      | false =>
        simp only [applyScripts, hc, Bool.false_eq_true, if_false] at hi ⊢
        exact ih _ i hi

/-- An executable script stays executable through the unblock loop. -/
theorem applyScripts_keeps_js (d : Decision) :
    ∀ (l : List (Nat × String)) (scr : Nat → Script) (i : Nat),
      (scr i).stype = SType.javascript →
      ((applyScripts d scr l).1 i).stype = SType.javascript := by
  intro l
  induction l with
  | nil => intro scr i h; exact h
  | cons p rest ih =>
    intro scr i h
    cases p with
    | mk j cat =>
      cases hc : (getProp d cat && (scr j).stype == SType.plain) with
      | true =>
        simp only [applyScripts, hc, if_true]
        have hij : i ≠ j := by
          intro he
          rw [← he] at hc
          simp [h] at hc
        apply ih
        rw [updf_ne _ _ hij]
        exact h
      | false =>
        simp only [applyScripts, hc, Bool.false_eq_true, if_false]
        exact ih _ i h

/-- The unblock loop never produces a text/plain script. -/
theorem applyScripts_no_new_plain (d : Decision) (l : List (Nat × String))
    (scr : Nat → Script) (i : Nat)
    (h : ((applyScripts d scr l).1 i).stype = SType.plain) :
    (scr i).stype = SType.plain := by
  cases hs : (scr i).stype with
  | plain => rfl
  | javascript =>
    have := applyScripts_keeps_js d l scr i hs
    rw [h] at this
    cases this

/-- The reported conversion list is exactly the blocked entries that
are consented and still text/plain, in list (FIFO) order, provided no
index repeats on the blocked list. -/
theorem applyScripts_convs (d : Decision) :
    ∀ (l : List (Nat × String)) (scr : Nat → Script),
      (l.map Prod.fst).Nodup →
      (applyScripts d scr l).2 =
        (l.filter (fun p => getProp d p.2 && (scr p.1).stype == SType.plain)).map Prod.fst := by
  intro l
  induction l with
  | nil => intro scr _; rfl
  | cons p rest ih =>
    intro scr hnd
    cases p with
    | mk j cat =>
      have hndr : (rest.map Prod.fst).Nodup := (List.nodup_cons.mp hnd).2
      have hjr : j ∉ rest.map Prod.fst := (List.nodup_cons.mp hnd).1
      cases hc : (getProp d cat && (scr j).stype == SType.plain) with
      | true =>
        simp only [applyScripts, hc, if_true]
        have heq : rest.filter (fun p => getProp d p.2 &&
            (updf scr j (activated (scr j)) p.1).stype == SType.plain) =
            rest.filter (fun p => getProp d p.2 && (scr p.1).stype == SType.plain) := by
          apply List.filter_congr
          intro q hq
          have hqj : q.1 ≠ j := by
            intro hqj
            exact hjr (hqj ▸ List.mem_map_of_mem Prod.fst hq)
          rw [updf_ne _ _ hqj]
        rw [ih _ hndr, heq, List.filter_cons]
        simp [hc]
      | false =>
        simp only [applyScripts, hc, Bool.false_eq_true, if_false]
        rw [ih _ hndr, List.filter_cons]
        simp [hc]

/-- A consented, still-blocked entry ends the loop as an executable
script whose conversion count rose by exactly one. -/
theorem applyScripts_converted (d : Decision) :
    ∀ (l : List (Nat × String)) (scr : Nat → Script),
      (l.map Prod.fst).Nodup →
      ∀ p ∈ l, getProp d p.2 = true → (scr p.1).stype = SType.plain →
        (applyScripts d scr l).1 p.1 = activated (scr p.1) := by
  intro l
  induction l with
  | nil => intro scr _ p hp; cases hp
  | cons q rest ih =>
    intro scr hnd p hp hg hpl
    cases q with
    | mk j cat =>
      have hndr : (rest.map Prod.fst).Nodup := (List.nodup_cons.mp hnd).2
      have hjr : j ∉ rest.map Prod.fst := (List.nodup_cons.mp hnd).1
      rcases List.mem_cons.mp hp with hph | hpt
      · subst hph
        have hg' : getProp d cat = true := hg
        have hpl' : (scr j).stype = SType.plain := hpl
        have hc : (getProp d cat && (scr j).stype == SType.plain) = true := by
          simp [hg', hpl']
        simp only [applyScripts, hc, if_true]
        have hnc : j ∉ (applyScripts d (updf scr j (activated (scr j))) rest).2 := by
          intro hmem
          exact hjr (applyScripts_subset d rest _ j hmem)
        show (applyScripts d (updf scr j (activated (scr j))) rest).1 j = activated (scr j)
        rw [applyScripts_not_conv d rest _ j hnc, updf_self]
      · have hpj : p.1 ≠ j := by
          intro he
          exact hjr (he ▸ List.mem_map_of_mem Prod.fst hpt)
        cases hc : (getProp d cat && (scr j).stype == SType.plain) with
        | true =>
          simp only [applyScripts, hc, if_true]
          have hscr2 : (updf scr j (activated (scr j))) p.1 = scr p.1 :=
            updf_ne _ _ hpj
          rw [ih _ hndr p hpt hg (by rw [hscr2]; exact hpl), hscr2]
        | false =>
          simp only [applyScripts, hc, Bool.false_eq_true, if_false]
          exact ih _ hndr p hpt hg hpl

/-- A script other than the handled one is untouched by handleScript. -/
theorem handleScript_other (s : CmpState) {i j : Nat} (h : i ≠ j) :
    (handleScript s j).scripts i = s.scripts i := by
  simp only [handleScript]
  cases hcat : (s.scripts j).category with
  | none => rfl
  | some cat =>
    simp only [hcat]
    repeat' split
    all_goals simp [updf, h]

/-- handleScript never changes the script counter. -/
theorem handleScript_count (s : CmpState) (j : Nat) :
    (handleScript s j).scriptCount = s.scriptCount := by
  simp only [handleScript]
  cases hcat : (s.scripts j).category with
  | none => rfl
  | some cat =>
    simp only [hcat]
    repeat' split
    all_goals rfl

/-- Everything saveConsent does, in one statement: scripts go through
the unblock loop, the counter is kept, the blocked list is cleared, the
in-memory consent becomes the new decision, the persisted copy changes
only on a successful write, and the effect list is persist attempt,
console error on failure, backend log, gate pass, notification. -/
theorem saveConsent_anatomy (s : CmpState) (d : Decision) (ok : Bool) :
    (saveConsent s d ok).1.scripts = (applyScripts d s.scripts s.blockedScripts).1 ∧
    (saveConsent s d ok).1.scriptCount = s.scriptCount ∧
    (saveConsent s d ok).1.blockedScripts = [] ∧
    (saveConsent s d ok).1.consent = some d ∧
    (saveConsent s d ok).1.persisted = (if ok then some d else s.persisted) ∧
    (saveConsent s d ok).2 =
      [Effect.persistAttempt ok] ++
      (if ok then [] else [Effect.consoleError]) ++
      [Effect.logBackend d,
       Effect.gateReeval (applyScripts d s.scripts s.blockedScripts).2,
       Effect.notify d] := by
  cases ok <;> simp [saveConsent, applyConsent]

/-- One event step neither forgets an executable script nor shrinks the
script map. -/
theorem stepEvent_keeps (s : CmpState) (e : Event) (i : Nat)
    (hc : i < s.scriptCount) (hj : (s.scripts i).stype = SType.javascript) :
    i < (stepEvent s e).scriptCount ∧
    ((stepEvent s e).scripts i).stype = SType.javascript := by
  cases e with
  | discover cat t b =>
    have hne : i ≠ s.scriptCount := Nat.ne_of_lt hc
    constructor
    · show i < (discover s cat t b).scriptCount
      simp only [discover, handleScript_count]
      exact Nat.lt_succ_of_lt hc
    · show ((discover s cat t b).scripts i).stype = SType.javascript
      simp only [discover]
      rw [handleScript_other _ hne]
      simp only [updf_ne _ _ hne]
      exact hj
  | consentChange d ok =>
    have h := saveConsent_anatomy s d ok
    constructor
    · show i < (saveConsent s d ok).1.scriptCount
      rw [h.2.1]
      exact hc
    · show ((saveConsent s d ok).1.scripts i).stype = SType.javascript
      rw [h.1]
      exact applyScripts_keeps_js d s.blockedScripts s.scripts i hj

/-- Executable scripts stay executable across any event sequence. -/
theorem runEvents_keeps (evs : List Event) :
    ∀ (s : CmpState) (i : Nat), i < s.scriptCount →
      (s.scripts i).stype = SType.javascript →
      i < (runEvents s evs).scriptCount ∧
      ((runEvents s evs).scripts i).stype = SType.javascript := by
  induction evs with
  | nil => intro s i hc hj; exact ⟨hc, hj⟩
  | cons e rest ih =>
    intro s i hc hj
    have h := stepEvent_keeps s e i hc hj
    exact ih (stepEvent s e) i h.1 h.2


end Cmp


open CookieDB ConsentLogger Cmp in
/-- C3 counterexample: in the corpus holding the wildcard pattern
_ga*, classify gives no wildcard match for _gat or _gid_abc, because
wildcardMatch preg_quotes the pattern before substituting, so the
pattern star means zero or more literal dots; the claim asserts a
wildcard match for both names. -/
theorem c3_counterexample :
    (CookieDB.categorize (some CookieDB.gaCorpus) [] "_gat" "").confidence = "none" ∧
    (CookieDB.categorize (some CookieDB.gaCorpus) [] "_gid_abc" "").confidence = "none" ∧
    CookieDB.wildcardMatch "_gat" "_ga*" = false := by
  decide

open CookieDB in
/-- C3 amended: the conversion in wildcardMatch escapes the pattern
first, so a star matches zero or more literal dot characters and a
question mark matches exactly one literal dot; over the corpus holding
the pattern _ga*, classify returns a wildcard match for _ga and for
_ga.., and no wildcard match for _gat, _gid_abc (which does not even
begin with _ga) or xga123. -/
theorem c3_amended :
    CookieDB.wildcardMatch "_ga" "_ga*" = true ∧
    CookieDB.wildcardMatch "_ga.." "_ga*" = true ∧
    CookieDB.wildcardMatch "_gat" "_ga*" = false ∧
    CookieDB.wildcardMatch "_gid_abc" "_ga*" = false ∧
    CookieDB.wildcardMatch "xga123" "_ga*" = false ∧
    CookieDB.wildcardMatch "a.b" "a?b" = true ∧
    CookieDB.wildcardMatch "axb" "a?b" = false ∧
    (CookieDB.categorize (some CookieDB.gaCorpus) [] "_ga" "").confidence = "wildcard" ∧
    (CookieDB.categorize (some CookieDB.gaCorpus) [] "_ga" "").category = "analytics" ∧
    (CookieDB.categorize (some CookieDB.gaCorpus) [] "_ga.." "").confidence = "wildcard" ∧
    (CookieDB.categorize (some CookieDB.gaCorpus) [] "_gat" "").confidence = "none" ∧
    (CookieDB.categorize (some CookieDB.gaCorpus) [] "_gid_abc" "").confidence = "none" ∧
    (CookieDB.categorize (some CookieDB.gaCorpus) [] "xga123" "").confidence = "none" := by
  decide

/-- C7: after addOverride(name, domain, category, reason) at some
timestamp, classify on the same name and domain in any letter case
returns that category with confidence override and the stored entry,
and re-adding an override for the same key replaces the prior entry and
refreshes its timestamp instead of accumulating. -/
theorem c7_override_wins_and_idempotent (db : CookieDB.Database)
    (ovr : List (String × CookieDB.OverrideEntry))
    (name domain name2 domain2 cat cat0 reason reason0 t0 t1 : String)
    (h1 : CookieDB.strtolower name2 = CookieDB.strtolower name)
    (h2 : CookieDB.strtolower domain2 = CookieDB.strtolower domain) :
    CookieDB.categorize (some db) (CookieDB.addOverride ovr name domain cat reason t1)
        name2 domain2 =
      ⟨cat, "override", CookieDB.Matched.override ⟨name, domain, cat, reason, t1⟩⟩ ∧
    CookieDB.addOverride (CookieDB.addOverride ovr name domain cat0 reason0 t0)
        name domain cat reason t1 =
      CookieDB.addOverride ovr name domain cat reason t1 := by
  constructor
  · simp only [CookieDB.categorize, CookieDB.addOverride, h1, h2,
      CookieDB.phpTruthy_strtolower]
    rw [CookieDB.lookupAssoc_assocSet_self]
  · simp only [CookieDB.addOverride]
    exact CookieDB.assocSet_assocSet ovr _ _ _

/-- C7 witness: a concrete override added with mixed case is found by a
lower-case classify call, with override confidence. -/
theorem c7_witness :
    CookieDB.categorize (some CookieDB.gaCorpus)
        (CookieDB.addOverride [] "_FBP" "Example.COM" "necessary" "manual" "t1")
        "_fbp" "example.com" =
      ⟨"necessary", "override",
       CookieDB.Matched.override ⟨"_FBP", "Example.COM", "necessary", "manual", "t1"⟩⟩ :=
  (c7_override_wins_and_idempotent CookieDB.gaCorpus [] "_FBP" "Example.COM"
    "_fbp" "example.com" "necessary" "x" "manual" "y" "t0" "t1"
    (by decide) (by decide)).1

/-- C8 counterexample: with no in-memory Index, no cache file, and a
failing download, categorize does not return the uncategorized result:
the download exception escapes the call; the claim says corpus
unavailability is never fatal to a categorize call. -/
theorem c8_counterexample :
    CookieDB.categorizeE none CookieDB.noCacheEnv [] "_ga" "" =
      Except.error "Failed to download Open Cookie Database" := rfl

/-- C8 amended: when an in-memory Index or a cache file exists,
categorize never throws and falls back to the cached Index (a cache
read failure degrades to the uncategorized result); only when neither
exists and the download fails does categorize propagate the download
exception instead of returning uncategorized. -/
theorem c8_amended (st : Option CookieDB.Database) (env : CookieDB.DbEnv)
    (ovr : List (String × CookieDB.OverrideEntry)) (name domain : String) :
    (env.cacheExists = true →
      CookieDB.categorizeE none env ovr name domain =
        Except.ok (CookieDB.categorize env.cacheRead ovr name domain)) ∧
    (∀ db, st = some db →
      CookieDB.categorizeE st env ovr name domain =
        Except.ok (CookieDB.categorize (some db) ovr name domain)) ∧
    (env.cacheExists = false → env.download = none →
      CookieDB.categorizeE none env ovr name domain =
        Except.error "Failed to download Open Cookie Database") := by
  refine ⟨?_, ?_, ?_⟩
  · intro hc
    cases hcr : env.cacheRead with
    | none => simp [CookieDB.categorizeE, CookieDB.loadDatabase, hc, hcr, CookieDB.categorize]
    | some db => simp [CookieDB.categorizeE, CookieDB.loadDatabase, hc, hcr]
  · intro db hdb
    subst hdb
    simp [CookieDB.categorizeE, CookieDB.loadDatabase]
  · intro hc hdl
    simp [CookieDB.categorizeE, CookieDB.loadDatabase, CookieDB.updateDatabase, hc, hdl,
      Except.map]

/-- C8 witness: with the cached one-record corpus present, a categorize
call on a fresh instance succeeds using the cache. -/
theorem c8_witness :
    CookieDB.categorizeE none CookieDB.cachedEnv [] "_ga" "" =
      Except.ok (CookieDB.categorize (some CookieDB.gaCorpus) [] "_ga" "") :=
  (c8_amended none CookieDB.cachedEnv [] "_ga" "").1 rfl

/-- C9 counterexample: a consent-set receipt with the short caller
session identifier abc is recorded with a sha256 hash of the identifier
and the remote address, not verbatim; the claim says the identifier is
never hashed before recording. -/
theorem c9_counterexample :
    ConsentLogger.logEntry [("necessary", true)] "abc" "203.0.113.7" "ts" "1.0.0" "1.0.0" =
      Except.ok ⟨"ts", ConsentLogger.SessionValue.hashed "abc203.0.113.7",
        [("necessary", true)], "1.0.0", "1.0.0"⟩ ∧
    ConsentLogger.SessionValue.hashed "abc203.0.113.7" ≠
      ConsentLogger.SessionValue.verbatim "abc" := by
  refine ⟨rfl, by decide⟩

/-- C9 amended: the logger records the caller session identifier
verbatim exactly when it is at least 32 characters long (the widget
generates 36-character identifiers, which pass through unmodified);
shorter identifiers are replaced by the sha256 hash of the identifier
concatenated with the remote address before the entry is recorded. -/
theorem c9_amended (st : List (String × Bool)) (sid addr ts wv pv : String)
    (hne : st.isEmpty = false) :
    (32 ≤ sid.length →
      ConsentLogger.logEntry st sid addr ts wv pv =
        Except.ok ⟨ts, ConsentLogger.SessionValue.verbatim sid, st, wv, pv⟩) ∧
    (sid.length < 32 →
      ConsentLogger.logEntry st sid addr ts wv pv =
        Except.ok ⟨ts, ConsentLogger.SessionValue.hashed (sid ++ addr), st, wv, pv⟩) := by
  constructor
  · intro h
    simp [ConsentLogger.logEntry, hne, Nat.not_lt.mpr h]
  · intro h
    simp [ConsentLogger.logEntry, hne, h]

/-- C9 witness: a 36-character identifier is recorded verbatim. -/
theorem c9_witness :
    ConsentLogger.logEntry [("necessary", true)]
        "123e4567-e89b-42d3-a456-426614174000" "203.0.113.7" "ts" "1.0.0" "1.0.0" =
      Except.ok ⟨"ts",
        ConsentLogger.SessionValue.verbatim "123e4567-e89b-42d3-a456-426614174000",
        [("necessary", true)], "1.0.0", "1.0.0"⟩ :=
  (c9_amended [("necessary", true)] "123e4567-e89b-42d3-a456-426614174000"
    "203.0.113.7" "ts" "1.0.0" "1.0.0" (by decide)).1 (by decide)

/-- C10: the standard reject-all decision, necessary true and every
other category false, is tallied by getStats under customized and not
under rejectedAll; rejectedAll is possible only when every category of
the entry including necessary is false; and an entry with an empty
consent map is tallied under acceptedAll. -/
theorem c10_getstats_tallies (logs : List (List (String × Bool))) :
    ConsentLogger.consentKindOf ConsentLogger.rejectAllState =
      ConsentLogger.ConsentKind.customized ∧
    (ConsentLogger.getStatsCounts (logs ++ [ConsentLogger.rejectAllState])).2.2 =
      (ConsentLogger.getStatsCounts logs).2.2 + 1 ∧
    (ConsentLogger.getStatsCounts (logs ++ [ConsentLogger.rejectAllState])).2.1 =
      (ConsentLogger.getStatsCounts logs).2.1 ∧
    (∀ st, ConsentLogger.consentKindOf st = ConsentLogger.ConsentKind.rejectedAll →
      ∀ p ∈ st, p.2 = false) ∧
    ConsentLogger.consentKindOf [] = ConsentLogger.ConsentKind.acceptedAll := by
  refine ⟨by decide, ?_, ?_, ?_, by decide⟩
  · simp [ConsentLogger.getStatsCounts, List.countP_append]
    decide
  · simp [ConsentLogger.getStatsCounts, List.countP_append]
    decide
  · exact ConsentLogger.consentKindOf_rejected

/-- C10 witness: a concrete rejectedAll-classified entry has every
category false, via the only-if direction at a two-category entry. -/
theorem c10_witness :
    ((("necessary", false) : String × Bool)).2 = false :=
  (c10_getstats_tallies []).2.2.2.1 [("necessary", false), ("analytics", false)]
    (by decide) ("necessary", false) (by simp)

/-- C1 counterexample: a marketing script blocked before any consent is
not activated when a second consent call raises marketing to true after
an earlier call granted only analytics: applyConsent cleared the
blocked list on the first call, so the script stays a text/plain
placeholder with zero conversions even though consent now grants
marketing; the claim requires it to become Active. -/
theorem c1_counterexample :
    (Cmp.runEvents Cmp.initState Cmp.twoStepGrantTrace).scripts 0 =
      ⟨some "marketing", Cmp.SType.plain, true, 0⟩ ∧
    (Cmp.runEvents Cmp.initState Cmp.twoStepGrantTrace).consent =
      some [("necessary", true), ("analytics", true), ("marketing", true)] := by
  decide

/-- C1 amended: on a consent call, the elements activated are exactly
the entries still on the blocked list (those blocked since the previous
consent application) that the new decision grants and that are still
placeholders, converted in list order, which is discovery order, each
exactly once; the pass then clears the blocked list, so elements
blocked before an earlier consent call are no longer on it and a later
grant does not activate them. -/
theorem c1_blocked_list_fifo (s : Cmp.CmpState) (d : Cmp.Decision) (ok : Bool)
    (hnd : (s.blockedScripts.map Prod.fst).Nodup) :
    Cmp.gateConversions (Cmp.saveConsent s d ok).2 =
      (s.blockedScripts.filter
        (fun p => Cmp.getProp d p.2 && (s.scripts p.1).stype == Cmp.SType.plain)).map
        Prod.fst ∧
    (Cmp.saveConsent s d ok).1.blockedScripts = [] ∧
    (∀ p ∈ s.blockedScripts, Cmp.getProp d p.2 = true →
      (s.scripts p.1).stype = Cmp.SType.plain →
      (Cmp.saveConsent s d ok).1.scripts p.1 = Cmp.activated (s.scripts p.1)) ∧
    (∀ i, i ∉ (Cmp.applyScripts d s.scripts s.blockedScripts).2 →
      (Cmp.saveConsent s d ok).1.scripts i = s.scripts i) := by
  have h := Cmp.saveConsent_anatomy s d ok
  refine ⟨?_, h.2.2.1, ?_, ?_⟩
  · rw [h.2.2.2.2.2]
    have hg : ∀ l, Cmp.gateConversions
        ([Cmp.Effect.persistAttempt ok] ++ (if ok then [] else [Cmp.Effect.consoleError]) ++
         [Cmp.Effect.logBackend d, Cmp.Effect.gateReeval l, Cmp.Effect.notify d]) = l := by
      intro l
      cases ok <;> rfl
    rw [hg]
    exact Cmp.applyScripts_convs d s.blockedScripts s.scripts hnd
  · intro p hp hgr hpl
    rw [h.1]
    exact Cmp.applyScripts_converted d s.blockedScripts s.scripts hnd p hp hgr hpl
  · intro i hi
    rw [h.1]
    exact Cmp.applyScripts_not_conv d s.blockedScripts s.scripts i hi

/-- C1 witness: one analytics script blocked before consent is
converted, exactly once, by the consent call that grants analytics. -/
theorem c1_witness :
    Cmp.gateConversions (Cmp.saveConsent Cmp.blockedOneState [("analytics", true)] true).2 =
      [0] ∧
    (Cmp.saveConsent Cmp.blockedOneState [("analytics", true)] true).1.scripts 0 =
      ⟨some "analytics", Cmp.SType.javascript, false, 1⟩ := by
  have h := c1_blocked_list_fifo Cmp.blockedOneState [("analytics", true)] true (by decide)
  constructor
  · rw [h.1]; decide
  · have h3 := h.2.2.1 (0, "analytics") (by decide) (by decide) (by decide)
    rw [h3]; decide

/-- C2: a gated element that has reached the Active executable state is
never returned to the Blocked placeholder state by any later sequence
of discoveries and consent changes, and a consent call never turns any
existing script into a placeholder, so revocation only affects elements
discovered after it. -/
theorem c2_active_is_terminal (s : Cmp.CmpState) (i : Nat) (evs : List Cmp.Event)
    (hc : i < s.scriptCount) (ha : (s.scripts i).stype = Cmp.SType.javascript) :
    ((Cmp.runEvents s evs).scripts i).stype = Cmp.SType.javascript ∧
    (∀ d ok j, ((Cmp.saveConsent s d ok).1.scripts j).stype = Cmp.SType.plain →
      (s.scripts j).stype = Cmp.SType.plain) := by
  constructor
  · exact (Cmp.runEvents_keeps evs s i hc ha).2
  · intro d ok j h
    rw [(Cmp.saveConsent_anatomy s d ok).1] at h
    exact Cmp.applyScripts_no_new_plain d s.blockedScripts s.scripts j h

/-- C2 witness: an analytics script active under granted consent stays
executable when analytics is revoked. -/
theorem c2_witness :
    ((Cmp.runEvents Cmp.activeOneState
        [Cmp.Event.consentChange [("analytics", false)] true]).scripts 0).stype =
      Cmp.SType.javascript :=
  (c2_active_is_terminal Cmp.activeOneState 0
    [Cmp.Event.consentChange [("analytics", false)] true] (by decide) (by decide)).1

/-- C5 counterexample: when the localStorage write fails, saveConsent
still changes the in-memory consent and still emits the change
notification, after running the gate pass; the failure is caught and
logged, not propagated, and the notification follows the gate pass
rather than preceding it. -/
theorem c5_counterexample :
    (Cmp.saveConsent Cmp.initState [("necessary", true)] false).2 =
      [Cmp.Effect.persistAttempt false, Cmp.Effect.consoleError,
       Cmp.Effect.logBackend [("necessary", true)], Cmp.Effect.gateReeval [],
       Cmp.Effect.notify [("necessary", true)]] ∧
    (Cmp.saveConsent Cmp.initState [("necessary", true)] false).1.consent =
      some [("necessary", true)] ∧
    (Cmp.saveConsent Cmp.initState [("necessary", true)] false).1.persisted = none := by
  decide

/-- C5 amended: every consent-set call updates the in-memory state,
attempts persistence first, then performs backend logging, exactly one
gate re-evaluation pass, and exactly one change notification as the
final action; a persistence failure is caught inside saveConsent: the
decision still takes effect in memory, the gate pass still runs and the
notification is still emitted, with only the durable copy left
unchanged. -/
theorem c5_persist_notify_order (s : Cmp.CmpState) (d : Cmp.Decision) (ok : Bool) :
    (Cmp.saveConsent s d ok).2.countP Cmp.isNotify = 1 ∧
    (Cmp.saveConsent s d ok).2.getLast? = some (Cmp.Effect.notify d) ∧
    (Cmp.saveConsent s d ok).2.countP Cmp.isGateReeval = 1 ∧
    (Cmp.saveConsent s d ok).2.head? = some (Cmp.Effect.persistAttempt ok) ∧
    (Cmp.saveConsent s d ok).1.consent = some d ∧
    (Cmp.saveConsent s d ok).1.persisted = (if ok then some d else s.persisted) := by
  have h := Cmp.saveConsent_anatomy s d ok
  refine ⟨?_, ?_, ?_, ?_, h.2.2.2.1, h.2.2.2.2.1⟩ <;>
    rw [h.2.2.2.2.2] <;> cases ok <;>
    simp [Cmp.isNotify, Cmp.isGateReeval, List.countP_cons, List.countP_nil]

/-- C6 counterexample: a decision submitted with necessary false is
stored and persisted verbatim: no coercion of necessary to true happens
anywhere in saveConsent, so a persisted consent state can carry
necessary false; the claim says necessary is coerced to true. -/
theorem c6_counterexample :
    (Cmp.saveConsent Cmp.initState [("necessary", false), ("analytics", true)] true).1.consent =
      some [("necessary", false), ("analytics", true)] ∧
    Cmp.getProp [("necessary", false), ("analytics", true)] "necessary" = false ∧
    (Cmp.saveConsent Cmp.initState
        [("necessary", false), ("analytics", true)] true).1.persisted =
      some [("necessary", false), ("analytics", true)] := by
  decide

/-- C6 amended: updateConsent stores the submitted decision object
verbatim, with no validation, no rejection and no coercion of the
necessary flag; the persisted copy equals the submitted decision
whenever the write succeeds. -/
theorem c6_no_coercion (s : Cmp.CmpState) (d : Cmp.Decision) (ok : Bool) :
    (Cmp.updateConsent s d ok).1.consent = some d ∧
    (Cmp.updateConsent s d ok).1.persisted = (if ok then some d else s.persisted) := by
  have h := Cmp.saveConsent_anatomy s d ok
  exact ⟨h.2.2.2.1, h.2.2.2.2.1⟩
